import Mathlib

/-!
Verification of the grade-generator program (`grade-generator.py`).

The program collects assignment records interactively, aggregates them into
category totals, a final grade, a GPA and a pass/fail verdict, prints a
summary and writes the records to a CSV file.  Numbers are modelled by `ℚ`
(the program's arithmetic on the inputs it accepts is exact decimal
arithmetic at this scale), interactive input by a list of pending input
strings consumed one per prompt, and printed output / file output by lists
of strings.
-/

namespace GradeGen

/-- The sole entity of the data model (`Assignment` dataclass, lines 14-23). -/
structure Assignment where
  name : String
  category : String
  grade : ℚ
  weight : ℚ
deriving DecidableEq, Repr

/-- `Assignment.weighted_grade` property (lines 21-23):
`(self.grade / 100.0) * self.weight`. -/
def Assignment.weighted_grade (a : Assignment) : ℚ :=
  (a.grade / 100) * a.weight

/-- Result of `calculate_totals` (the returned dict, lines 111-121),
re-expressed as a structure with one field per dict key. -/
structure Totals where
  total_formative : ℚ
  total_summative : ℚ
  total_fa_weight : ℚ
  total_sa_weight : ℚ
  final_grade : ℚ
  gpa : ℚ
  fa_threshold : ℚ
  sa_threshold : ℚ
  passes : Bool
deriving DecidableEq, Repr

/-- `calculate_totals` (lines 96-121). -/
def calculate_totals (assignments : List Assignment) : Totals :=
  let total_formative :=
    ((assignments.filter (fun a => a.category == "FA")).map Assignment.weighted_grade).sum
  let total_summative :=
    ((assignments.filter (fun a => a.category == "SA")).map Assignment.weighted_grade).sum
  let total_fa_weight :=
    ((assignments.filter (fun a => a.category == "FA")).map Assignment.weight).sum
  let total_sa_weight :=
    ((assignments.filter (fun a => a.category == "SA")).map Assignment.weight).sum
  let final_grade := total_formative + total_summative
  let gpa := (final_grade / 100) * 5
  let fa_threshold := total_fa_weight * (1/2)
  let sa_threshold := total_sa_weight * (1/2)
  let passes : Bool :=
    (if 0 < total_fa_weight then decide (fa_threshold ≤ total_formative) else true)
      && (if 0 < total_sa_weight then decide (sa_threshold ≤ total_summative) else true)
  { total_formative := total_formative
    total_summative := total_summative
    total_fa_weight := total_fa_weight
    total_sa_weight := total_sa_weight
    final_grade := final_grade
    gpa := gpa
    fa_threshold := fa_threshold
    sa_threshold := sa_threshold
    passes := passes }

/-- `format_percentage` (lines 124-127). -/
def format_percentage (value : ℚ) (total_weight : ℚ) : ℚ :=
  if total_weight ≤ 0 then 0
  else (value / total_weight) * 100

/-- The spec's per-category pass rule, stated in the spec's own words:
"the category passes if its weight total is 0 (category absent ⇒ vacuously
passes) OR its total weighted score ≥ half its total weight". -/
def categoryPassesSpec (total_weight achieved : ℚ) : Prop :=
  total_weight = 0 ∨ total_weight * (1/2) ≤ achieved

/-! ## Interactive input model

Each `prompt_*` function consumes raw input strings from the front of a
pending-input list, looping (as the Python `while True` loops do) until a
valid value is found; it returns the value together with the unconsumed
inputs, or `none` when the inputs run out (the Python loops block forever
in that case, so `none` models a session that never finishes the prompt).
Python's `str.strip` is modelled by `pyStrip`; the builtin `float` is an
arbitrary parameter `parse : String → Option ℚ` (parse failure = the
`ValueError` branch), with `pyFloat` below a concrete instance for tests. -/

/-- Model of Python's `str.strip()`: drop leading and trailing whitespace. -/
def stripChars (l : List Char) : List Char :=
  ((l.dropWhile Char.isWhitespace).reverse.dropWhile Char.isWhitespace).reverse

/-- `str.strip()` on strings. -/
def pyStrip (s : String) : String :=
  String.mk (stripChars s.toList)

/-- Model of Python's `str.upper()`: uppercase character by character. -/
def pyUpper (s : String) : String :=
  String.mk (s.toList.map Char.toUpper)

/-- Model of Python's `str.lower()`: lowercase character by character. -/
def pyLower (s : String) : String :=
  String.mk (s.toList.map Char.toLower)

/-- Digit list to natural number, most significant first. -/
def digitsToNat (l : List Char) : Nat :=
  l.foldl (fun n c => n * 10 + (c.toNat - 48)) 0

/-- Model of Python's builtin `float` on the simple decimal forms relevant
here: optional sign, integer digits, optional fractional digits.  Returns
`none` where `float(raw)` raises `ValueError` (and on exotic forms such as
exponents, which this model conservatively rejects). -/
def pyFloat (s : String) : Option ℚ :=
  let cs := (pyStrip s).toList
  let signAndRest : ℚ × List Char :=
    match cs with
    | '-' :: rest => (-1, rest)
    | '+' :: rest => (1, rest)
    | _ => (1, cs)
  let sign := signAndRest.1
  let body := signAndRest.2
  let intPart := body.takeWhile Char.isDigit
  let rest := body.dropWhile Char.isDigit
  match rest with
  | [] =>
      if intPart.isEmpty then none
      else some (sign * (digitsToNat intPart : ℚ))
  | '.' :: frac =>
      if frac.all Char.isDigit && !(intPart.isEmpty && frac.isEmpty) then
        some (sign * ((digitsToNat intPart : ℚ)
          + (digitsToNat frac : ℚ) / (10 ^ frac.length)))
      else none
  | _ => none

/-- A tiny concrete parser used by the closed test witnesses: a lookup
table for the few numeric strings the witnesses feed in (kernel-evaluable,
unlike rational division inside `pyFloat`). -/
def witnessParse : String → Option ℚ
  | "80" => some 80
  | "20" => some 20
  | _ => none

/-- `prompt_non_empty` (lines 26-31): re-prompt until the stripped input is
non-empty. -/
def prompt_non_empty : List String → Option (String × List String)
  | [] => none
  | raw :: rest =>
      let value := pyStrip raw
      if value ≠ "" then some (value, rest) else prompt_non_empty rest

/-- `prompt_category` (lines 34-39): strip, uppercase, accept exactly
"FA" or "SA". -/
def prompt_category : List String → Option (String × List String)
  | [] => none
  | raw :: rest =>
      let category := pyUpper (pyStrip raw)
      if category = "FA" ∨ category = "SA" then some (category, rest)
      else prompt_category rest

/-- `prompt_grade` (lines 42-53): parse as a number, accept iff
`0 <= grade <= 100`. -/
def prompt_grade (parse : String → Option ℚ) : List String → Option (ℚ × List String)
  | [] => none
  | raw :: rest =>
      match parse (pyStrip raw) with
      | none => prompt_grade parse rest
      | some grade =>
          if 0 ≤ grade ∧ grade ≤ 100 then some (grade, rest)
          else prompt_grade parse rest

/-- `prompt_weight` (lines 56-67): parse as a number, accept iff
`weight > 0`. -/
def prompt_weight (parse : String → Option ℚ) : List String → Option (ℚ × List String)
  | [] => none
  | raw :: rest =>
      match parse (pyStrip raw) with
      | none => prompt_weight parse rest
      | some weight =>
          if 0 < weight then some (weight, rest)
          else prompt_weight parse rest

/-- `prompt_continue` (lines 70-77): strip, lowercase, accept y/yes/n/no. -/
def prompt_continue : List String → Option (Bool × List String)
  | [] => none
  | raw :: rest =>
      let response := pyLower (pyStrip raw)
      if response = "y" ∨ response = "yes" then some (true, rest)
      else if response = "n" ∨ response = "no" then some (false, rest)
      else prompt_continue rest

/-- `collect_assignments` (lines 80-93).  The `while True` loop builds one
record per iteration (name, category, grade, weight), appends it before the
continuation question is asked, and exits when the continuation answer is
"no".  `fuel` bounds the number of loop iterations; `none` models a session
whose inputs run out mid-prompt (the Python loop would block forever). -/
def collect_assignments (parse : String → Option ℚ) :
    Nat → List String → Option (List Assignment)
  | 0, _ => none
  | fuel + 1, inputs =>
      match prompt_non_empty inputs with
      | none => none
      | some (name, r1) =>
        match prompt_category r1 with
        | none => none
        | some (category, r2) =>
          match prompt_grade parse r2 with
          | none => none
          | some (grade, r3) =>
            match prompt_weight parse r3 with
            | none => none
            | some (weight, r4) =>
              match prompt_continue r4 with
              | none => none
              | some (cont, r5) =>
                  if cont then
                    (collect_assignments parse fuel r5).map
                      (fun rest => ⟨name, category, grade, weight⟩ :: rest)
                  else
                    some [⟨name, category, grade, weight⟩]

/-! ## Output model

Python's `f"{x:.2f}"` formatting is modelled by `fmt2`: the value rounded
to hundredths and printed with exactly two digits after the decimal point.
Printed output is a list of strings (one per `print` call); the CSV file is
a list of row strings. -/

/-- The two-character digit string for `k % 100`. -/
def twoDigits (k : Nat) : String :=
  String.mk [Nat.digitChar (k / 10 % 10), Nat.digitChar (k % 10)]

/-- Model of `f"{q:.2f}"`: the integer `⌊100·q + 1/2⌋` (the value rounded
half-up to hundredths, written over `q.num`/`q.den` so that it evaluates by
kernel reduction; `fmt2_eq_round` below checks it equals `round (q * 100)`),
rendered with two digits after the point. -/
def fmt2 (q : ℚ) : String :=
  let n : ℤ := (200 * q.num + (q.den : ℤ)) / (2 * (q.den : ℤ))
  let sign := if n < 0 then "-" else ""
  let m := n.natAbs
  sign ++ toString (m / 100) ++ "." ++ twoDigits m

/-- A string ends in a decimal point followed by exactly two digits. -/
def twoDecimalField (s : String) : Prop :=
  ∃ t d, s = t ++ "." ++ d ∧ d.length = 2 ∧ d.toList.all Char.isDigit = true

/-- One CSV data row (the `writer.writerow` dict, lines 184-191, joined by
the comma delimiter): name, category, two-decimal grade, two-decimal
weight. -/
def csvRow (a : Assignment) : String :=
  a.name ++ "," ++ a.category ++ "," ++ fmt2 a.grade ++ "," ++ fmt2 a.weight

/-- The header row written by `writer.writeheader()` (line 182). -/
def csvHeader : String :=
  "Assignment,Category,Grade,Weight"

/-- `write_csv` (lines 179-191) as the list of lines of the produced file:
the header, then the `for` loop appends one row per assignment in order. -/
def write_csv (assignments : List Assignment) : List String :=
  assignments.foldl (fun rows a => rows ++ [csvRow a]) [csvHeader]

/-- A per-category failure diagnostic as printed on lines 169-176:
category label, achieved total, required threshold. -/
structure FailDiag where
  cat : String
  achieved : ℚ
  needed : ℚ
deriving DecidableEq, Repr

/-- Rendering of a diagnostic (the f-strings on lines 171 and 175). -/
def renderDiag (d : FailDiag) : String :=
  "Failed " ++ d.cat ++ " (achieved " ++ fmt2 d.achieved ++ " / need "
    ++ fmt2 d.needed ++ ")"

/-- The failure diagnostics emitted by `print_summary` (lines 168-176):
nothing when the verdict is PASS; otherwise one diagnostic per category
with positive weight whose achieved total is below its threshold. -/
def fail_diagnostics (t : Totals) : List FailDiag :=
  if t.passes then []
  else
    (if 0 < t.total_fa_weight ∧ t.total_formative < t.fa_threshold then
        [⟨"FA", t.total_formative, t.fa_threshold⟩] else [])
      ++ (if 0 < t.total_sa_weight ∧ t.total_summative < t.sa_threshold then
        [⟨"SA", t.total_summative, t.sa_threshold⟩] else [])

/-- The per-assignment line of the summary (lines 143-148), 1-based index. -/
def summaryLine (idx : Nat) (a : Assignment) : String :=
  toString idx ++ ". " ++ a.name ++ " (" ++ a.category ++ "): "
    ++ fmt2 a.grade ++ "% - Weight: " ++ fmt2 a.weight
    ++ " - Weighted: " ++ fmt2 a.weighted_grade

/-- `print_summary` (lines 130-176) as the list of printed lines. -/
def print_summary_lines (assignments : List Assignment) (t : Totals) : List String :=
  ["\n=== GRADE SUMMARY ===\n", "Assignments Entered:"]
    ++ (assignments.mapIdx fun i a => summaryLine (i + 1) a)
    ++ ["\nCategory Breakdown:",
        "- Total Formative (FA): " ++ fmt2 t.total_formative ++ "/"
          ++ fmt2 t.total_fa_weight ++ " ("
          ++ fmt2 (format_percentage t.total_formative t.total_fa_weight) ++ "%)",
        "- Total Summative (SA): " ++ fmt2 t.total_summative ++ "/"
          ++ fmt2 t.total_sa_weight ++ " ("
          ++ fmt2 (format_percentage t.total_summative t.total_sa_weight) ++ "%)",
        "\nFinal Results:",
        "- Total Grade: " ++ fmt2 t.final_grade ++ "/100",
        "- GPA: " ++ fmt2 t.gpa ++ "/5.0",
        "- Status: " ++ (if t.passes then "PASS" else "FAIL")]
    ++ (fail_diagnostics t).map renderDiag

/-- What `main` (lines 194-203) does after `collect_assignments` returns:
on an empty list, print the exit message and stop (no totals, no summary,
no file); otherwise aggregate, print the summary, write the CSV file and
confirm.  Result: (lines printed, file contents written or `none`). -/
def main_run (assignments : List Assignment) : List String × Option (List String) :=
  if assignments.isEmpty then
    (["No assignments entered. Exiting without generating summary."], none)
  else
    let totals := calculate_totals assignments
    (print_summary_lines assignments totals ++ ["\nData saved to grades.csv"],
      some (write_csv assignments))

/-! ## Helper lemmas -/

lemma toList_mk (l : List Char) : (String.mk l).toList = l := rfl

lemma mk_eq_empty_iff (l : List Char) : String.mk l = "" ↔ l = [] := by
  constructor
  · intro h
    have h2 : (String.mk l).toList = "".toList := by rw [h]
    simpa using h2
  · intro h
    rw [h]

/-- The head of `dropWhile p l` does not satisfy `p`. -/
lemma dropWhile_head_false {p : Char → Bool} :
    ∀ {l t : List Char} {a : Char}, l.dropWhile p = a :: t → p a = false := by
  intro l
  induction l with
  | nil => intro t a h; simp [List.dropWhile] at h
  | cons x xs ih =>
      intro t a h
      by_cases hx : p x
      · rw [List.dropWhile_cons_of_pos hx] at h
        exact ih h
      · rw [List.dropWhile_cons_of_neg hx] at h
        cases h
        simpa using hx

/-- A list holding some non-`p` character keeps one through `dropWhile p`. -/
lemma dropWhile_keeps_witness {p : Char → Bool} :
    ∀ {l : List Char}, (∃ c ∈ l, p c = false) →
      ∃ c ∈ l.dropWhile p, p c = false := by
  intro l
  induction l with
  | nil => rintro ⟨c, hc, _⟩; simp at hc
  | cons x xs ih =>
      rintro ⟨c, hc, hpc⟩
      by_cases hx : p x
      · rw [List.dropWhile_cons_of_pos hx]
        apply ih
        rcases List.mem_cons.mp hc with h | h
        · subst h; rw [hx] at hpc; cases hpc
        · exact ⟨c, h, hpc⟩
      · rw [List.dropWhile_cons_of_neg hx]
        exact ⟨x, List.mem_cons_self x xs, by simpa using hx⟩

lemma mem_of_mem_dropWhile {p : Char → Bool} {l : List Char} {c : Char}
    (h : c ∈ l.dropWhile p) : c ∈ l :=
  (List.dropWhile_sublist p).subset h

/-- `stripChars l` is non-empty exactly when `l` holds a non-whitespace
character. -/
lemma stripChars_ne_nil_iff (l : List Char) :
    stripChars l ≠ [] ↔ ∃ c ∈ l, Char.isWhitespace c = false := by
  unfold stripChars
  constructor
  · intro h
    have h1 : (l.dropWhile Char.isWhitespace).reverse.dropWhile Char.isWhitespace ≠ [] := by
      intro hnil; rw [hnil] at h; simp at h
    rcases List.exists_cons_of_ne_nil h1 with ⟨a, t, hat⟩
    have hpa := dropWhile_head_false hat
    have ha : a ∈ (l.dropWhile Char.isWhitespace).reverse.dropWhile Char.isWhitespace := by
      rw [hat]; exact List.mem_cons_self a t
    have ha2 : a ∈ l.dropWhile Char.isWhitespace := List.mem_reverse.mp (mem_of_mem_dropWhile ha)
    exact ⟨a, mem_of_mem_dropWhile ha2, hpa⟩
  · rintro ⟨c, hc, hpc⟩
    rcases dropWhile_keeps_witness ⟨c, hc, hpc⟩ with ⟨d, hd, hpd⟩
    have h2 : ∃ e ∈ (l.dropWhile Char.isWhitespace).reverse, Char.isWhitespace e = false :=
      ⟨d, List.mem_reverse.mpr hd, hpd⟩
    rcases dropWhile_keeps_witness h2 with ⟨e, he, _⟩
    intro hnil
    rw [List.reverse_eq_nil_iff] at hnil
    rw [hnil] at he
    simp at he

/-- A non-empty stripped list still holds a non-whitespace character. -/
lemma stripChars_witness {l : List Char} (h : stripChars l ≠ []) :
    ∃ c ∈ stripChars l, Char.isWhitespace c = false := by
  unfold stripChars at *
  have h1 : (l.dropWhile Char.isWhitespace).reverse.dropWhile Char.isWhitespace ≠ [] := by
    intro hnil; rw [hnil] at h; simp at h
  rcases List.exists_cons_of_ne_nil h1 with ⟨a, t, hat⟩
  refine ⟨a, ?_, dropWhile_head_false hat⟩
  rw [hat]
  simp

/-- Stripping an already stripped non-empty string leaves it non-empty:
the "name is non-empty after trimming" invariant. -/
lemma pyStrip_pyStrip_ne_empty {s : String} (h : pyStrip s ≠ "") :
    pyStrip (pyStrip s) ≠ "" := by
  have h1 : stripChars s.toList ≠ [] := by
    intro hnil
    apply h
    unfold pyStrip
    rw [hnil]
  rcases stripChars_witness h1 with ⟨c, hc, hpc⟩
  have h2 : stripChars (pyStrip s).toList ≠ [] := by
    unfold pyStrip
    rw [toList_mk]
    exact (stripChars_ne_nil_iff _).mpr ⟨c, hc, hpc⟩
  intro hcon
  exact h2 (congrArg String.toList hcon)

/-- `prompt_non_empty` only returns a stripped non-empty value. -/
lemma prompt_non_empty_spec :
    ∀ {inputs : List String} {v : String} {rest : List String},
      prompt_non_empty inputs = some (v, rest) → pyStrip v ≠ "" ∧ v ≠ "" := by
  intro inputs
  induction inputs with
  | nil => intro v rest h; simp [prompt_non_empty] at h
  | cons raw t ih =>
      intro v rest h
      rw [prompt_non_empty] at h
      by_cases hv : pyStrip raw ≠ ""
      · rw [if_pos hv] at h
        cases h
        exact ⟨pyStrip_pyStrip_ne_empty hv, hv⟩
      · rw [if_neg hv] at h
        exact ih h

/-- `prompt_category` only returns "FA" or "SA". -/
lemma prompt_category_spec :
    ∀ {inputs : List String} {c : String} {rest : List String},
      prompt_category inputs = some (c, rest) → c = "FA" ∨ c = "SA" := by
  intro inputs
  induction inputs with
  | nil => intro c rest h; simp [prompt_category] at h
  | cons raw t ih =>
      intro c rest h
      rw [prompt_category] at h
      by_cases hc : pyUpper (pyStrip raw) = "FA" ∨ pyUpper (pyStrip raw) = "SA"
      · rw [if_pos hc] at h
        cases h
        exact hc
      · rw [if_neg hc] at h
        exact ih h

/-- `prompt_grade` only returns a value in `[0, 100]`. -/
lemma prompt_grade_spec (parse : String → Option ℚ) :
    ∀ {inputs : List String} {g : ℚ} {rest : List String},
      prompt_grade parse inputs = some (g, rest) → 0 ≤ g ∧ g ≤ 100 := by
  intro inputs
  induction inputs with
  | nil => intro g rest h; simp [prompt_grade] at h
  | cons raw t ih =>
      intro g rest h
      rw [prompt_grade] at h
      split at h
      · exact ih h
      · split at h
        · cases h
          next _ hx => exact hx
        · exact ih h

/-- `prompt_weight` only returns a strictly positive value. -/
lemma prompt_weight_spec (parse : String → Option ℚ) :
    ∀ {inputs : List String} {w : ℚ} {rest : List String},
      prompt_weight parse inputs = some (w, rest) → 0 < w := by
  intro inputs
  induction inputs with
  | nil => intro w rest h; simp [prompt_weight] at h
  | cons raw t ih =>
      intro w rest h
      rw [prompt_weight] at h
      split at h
      · exact ih h
      · split at h
        · cases h
          next _ hx => exact hx
        · exact ih h

/-- Soundness of the collection loop: a successfully collected record list
is non-empty and every record satisfies the data-model invariants. -/
lemma collect_assignments_sound (parse : String → Option ℚ) :
    ∀ (fuel : Nat) (inputs : List String) (as : List Assignment),
      collect_assignments parse fuel inputs = some as →
      as ≠ [] ∧ ∀ a ∈ as,
        (pyStrip a.name ≠ "" ∧ a.name ≠ "")
          ∧ (a.category = "FA" ∨ a.category = "SA")
          ∧ (0 ≤ a.grade ∧ a.grade ≤ 100) ∧ 0 < a.weight := by
  intro fuel
  induction fuel with
  | zero => intro inputs as h; simp [collect_assignments] at h
  | succ n ih =>
      intro inputs as h
      rw [collect_assignments] at h
      split at h
      · cases h
      rename_i name r1 h1
      split at h
      · cases h
      rename_i category r2 h2
      split at h
      · cases h
      rename_i grade r3 h3
      split at h
      · cases h
      rename_i weight r4 h4
      split at h
      · cases h
      rename_i cont r5 h5
      split at h
      · rw [Option.map_eq_some'] at h
        rcases h with ⟨as2, has2, rfl⟩
        obtain ⟨hne, hprops⟩ := ih r5 as2 has2
        refine ⟨by simp, ?_⟩
        intro x hx
        rcases List.mem_cons.mp hx with rfl | hx2
        · exact ⟨prompt_non_empty_spec h1, prompt_category_spec h2,
            prompt_grade_spec parse h3, prompt_weight_spec parse h4⟩
        · exact hprops x hx2
      · cases h
        refine ⟨by simp, ?_⟩
        intro x hx
        rcases List.mem_cons.mp hx with rfl | hx2
        · exact ⟨prompt_non_empty_spec h1, prompt_category_spec h2,
            prompt_grade_spec parse h3, prompt_weight_spec parse h4⟩
        · simp at hx2

/-- The pass flag computed on line 107-109, characterised by the spec's
per-category rule, assuming the weight totals are non-negative. -/
lemma passes_flag_iff (fw tf sw ts : ℚ) (hfw : 0 ≤ fw) (hsw : 0 ≤ sw) :
    (((if 0 < fw then decide (fw * (1/2) ≤ tf) else true)
        && (if 0 < sw then decide (sw * (1/2) ≤ ts) else true)) = true
      ↔ (categoryPassesSpec fw tf ∧ categoryPassesSpec sw ts)) := by
  by_cases h1 : 0 < fw <;> by_cases h2 : 0 < sw
  · simp [h1, h2, categoryPassesSpec, h1.ne', h2.ne']
  · have h2' : sw = 0 := le_antisymm (not_lt.mp h2) hsw
    simp [h1, h2, categoryPassesSpec, h1.ne', h2']
  · have h1' : fw = 0 := le_antisymm (not_lt.mp h1) hfw
    simp [h1, h2, categoryPassesSpec, h1', h2.ne']
  · have h1' : fw = 0 := le_antisymm (not_lt.mp h1) hfw
    have h2' : sw = 0 := le_antisymm (not_lt.mp h2) hsw
    simp [h1, h2, categoryPassesSpec, h1', h2']

/-- A category's weight total is non-negative for records with positive
weights. -/
lemma total_weight_nonneg (as : List Assignment)
    (hw : ∀ a ∈ as, 0 < a.weight) (c : String) :
    0 ≤ ((as.filter (fun a => a.category == c)).map Assignment.weight).sum := by
  apply List.sum_nonneg
  intro x hx
  rcases List.mem_map.mp hx with ⟨a, ha, rfl⟩
  exact (hw a (List.mem_of_mem_filter ha)).le

/-- The `for` loop of `write_csv` appends exactly one row per record,
in order. -/
lemma foldl_append_rows (l : List Assignment) (init : List String) :
    l.foldl (fun rows a => rows ++ [csvRow a]) init = init ++ l.map csvRow := by
  induction l generalizing init with
  | nil => simp
  | cons a t ih => simp [List.foldl_cons, ih]

/-- The integer computed inside `fmt2` is exactly `round (q * 100)`:
the num/den formulation used there agrees with rounding half-up to
hundredths. -/
lemma fmt2_eq_round (q : ℚ) :
    (200 * q.num + (q.den : ℤ)) / (2 * (q.den : ℤ)) = round (q * 100) := by
  rw [round_eq]
  have hd : ((q.den : ℚ)) ≠ 0 := by exact_mod_cast q.den_nz
  have hq : (q.num : ℚ) = q * (q.den : ℚ) := by
    have h0 := Rat.num_div_den q
    rw [div_eq_iff hd] at h0
    exact h0
  have h2d : ((2 * q.den : ℕ) : ℚ) ≠ 0 := by
    push_cast
    intro hc
    apply hd
    linarith
  have key : q * 100 + 1/2
      = ((200 * q.num + (q.den : ℤ) : ℤ) : ℚ) / ((2 * q.den : ℕ) : ℚ) := by
    rw [eq_div_iff h2d]
    push_cast
    linear_combination (-200 : ℚ) * hq
  rw [key, Rat.floor_intCast_div_natCast]
  norm_cast

lemma digitChar_isDigit {r : Nat} (h : r < 10) : (Nat.digitChar r).isDigit = true := by
  interval_cases r <;> decide

/-- Every `fmt2` rendering ends in a decimal point and exactly two digits. -/
lemma fmt2_twoDecimal (q : ℚ) : twoDecimalField (fmt2 q) := by
  unfold fmt2 twoDecimalField
  refine ⟨(if ((200 * q.num + (q.den : ℤ)) / (2 * (q.den : ℤ)) < 0) then "-" else "")
      ++ toString (((200 * q.num + (q.den : ℤ)) / (2 * (q.den : ℤ))).natAbs / 100),
    twoDigits ((200 * q.num + (q.den : ℤ)) / (2 * (q.den : ℤ))).natAbs, rfl, rfl, ?_⟩
  unfold twoDigits
  have h1 : (((200 * q.num + (q.den : ℤ)) / (2 * (q.den : ℤ))).natAbs / 10 % 10) < 10 :=
    Nat.mod_lt _ (by norm_num)
  have h2 : (((200 * q.num + (q.den : ℤ)) / (2 * (q.den : ℤ))).natAbs % 10) < 10 :=
    Nat.mod_lt _ (by norm_num)
  simp [toList_mk, digitChar_isDigit h1, digitChar_isDigit h2]

/-- The formative/summative partition of the weighted-grade total: when
every record is "FA" or "SA" the two filtered sums add up to the sum over
all records. -/
lemma sum_wg_split :
    ∀ (l : List Assignment), (∀ a ∈ l, a.category = "FA" ∨ a.category = "SA") →
      ((l.filter (fun a => a.category == "FA")).map Assignment.weighted_grade).sum
        + ((l.filter (fun a => a.category == "SA")).map Assignment.weighted_grade).sum
        = (l.map Assignment.weighted_grade).sum := by
  intro l
  induction l with
  | nil => intro _; simp
  | cons a t ih =>
      intro h
      have ht : ∀ x ∈ t, x.category = "FA" ∨ x.category = "SA" :=
        fun x hx => h x (List.mem_cons_of_mem a hx)
      rcases h a (List.mem_cons_self a t) with hfa | hsa
      · have hnot : (a.category == "SA") = false := by simp [hfa]
        rw [List.filter_cons_of_pos (by simp [hfa]), List.filter_cons_of_neg (by simp [hnot])]
        simp only [List.map_cons, List.sum_cons]
        rw [add_assoc, ih ht]
      · have hnot : (a.category == "FA") = false := by simp [hsa]
        rw [List.filter_cons_of_neg (by simp [hnot]), List.filter_cons_of_pos (by simp [hsa])]
        simp only [List.map_cons, List.sum_cons]
        rw [← add_assoc, add_comm _ (Assignment.weighted_grade a), add_assoc, ih ht]

/-! ## Claim theorems -/

/-- C1: for records with positive weights, the overall pass verdict of
`calculate_totals` is true iff both categories pass the spec's rule (weight
total 0, or achieved ≥ half the weight total); and the boundary is
inclusive: with a category weight total of 100, achieved 50 passes and any
achieved strictly below 50 fails. -/
theorem calculate_totals_passes_iff (as : List Assignment)
    (hw : ∀ a ∈ as, 0 < a.weight) :
    ((calculate_totals as).passes = true
      ↔ (categoryPassesSpec (calculate_totals as).total_fa_weight
            (calculate_totals as).total_formative
          ∧ categoryPassesSpec (calculate_totals as).total_sa_weight
            (calculate_totals as).total_summative))
    ∧ (∀ g : ℚ,
        ((calculate_totals [⟨"only", "FA", g, 100⟩]).passes = true ↔ 50 ≤ g)) := by
  constructor
  · have hfa := total_weight_nonneg as hw "FA"
    have hsa := total_weight_nonneg as hw "SA"
    simp only [calculate_totals] at hfa hsa ⊢
    exact passes_flag_iff _ _ _ _ hfa hsa
  · intro g
    simp +decide [calculate_totals, Assignment.weighted_grade]
    constructor
    · intro h; linarith
    · intro h; linarith

/-- Witness for C1: the boundary input, achieved exactly half the weight. -/
theorem calculate_totals_passes_iff_witness :
    (calculate_totals [⟨"only", "FA", (50 : ℚ), 100⟩]).passes = true ↔ 50 ≤ (50 : ℚ) :=
  (calculate_totals_passes_iff [] (by simp)).2 50

/-- C2: every record returned by `collect_assignments` has a name that is
non-empty after stripping, a category that is exactly "FA" or "SA", a grade
in [0, 100] and a strictly positive weight; and the values returned by
`prompt_grade` and `prompt_weight` always satisfy these range constraints. -/
theorem collect_assignments_invariants (parse : String → Option ℚ)
    (fuel : Nat) (inputs : List String) (as : List Assignment)
    (h : collect_assignments parse fuel inputs = some as) :
    (∀ a ∈ as, pyStrip a.name ≠ ""
        ∧ (a.category = "FA" ∨ a.category = "SA")
        ∧ (0 ≤ a.grade ∧ a.grade ≤ 100) ∧ 0 < a.weight)
    ∧ (∀ (ins : List String) (g : ℚ) (r : List String),
        prompt_grade parse ins = some (g, r) → 0 ≤ g ∧ g ≤ 100)
    ∧ (∀ (ins : List String) (w : ℚ) (r : List String),
        prompt_weight parse ins = some (w, r) → 0 < w) := by
  refine ⟨?_, fun _ _ _ hg => prompt_grade_spec parse hg,
    fun _ _ _ hw => prompt_weight_spec parse hw⟩
  intro a ha
  obtain ⟨-, hprops⟩ := collect_assignments_sound parse fuel inputs as h
  obtain ⟨⟨hn, -⟩, h2, h3, h4⟩ := hprops a ha
  exact ⟨hn, h2, h3, h4⟩

/-- Witness for C2: a one-record session. -/
theorem collect_assignments_invariants_witness :
    pyStrip "hw" ≠ "" ∧ ("FA" = "FA" ∨ "FA" = "SA")
      ∧ ((0 : ℚ) ≤ 80 ∧ (80 : ℚ) ≤ 100) ∧ (0 : ℚ) < 20 :=
  (collect_assignments_invariants witnessParse 1 ["hw", "fa", "80", "20", "n"]
      [⟨"hw", "FA", 80, 20⟩] (by decide)).1 ⟨"hw", "FA", 80, 20⟩ (by simp)

/-- C3: for a grade in [0, 100] and a positive weight, the derived
`weighted_grade` equals `(grade / 100) * weight` and lies in `[0, weight]`. -/
theorem weighted_grade_spec (a : Assignment)
    (hg0 : 0 ≤ a.grade) (hg1 : a.grade ≤ 100) (hw : 0 < a.weight) :
    a.weighted_grade = (a.grade / 100) * a.weight
      ∧ 0 ≤ a.weighted_grade ∧ a.weighted_grade ≤ a.weight := by
  refine ⟨rfl, ?_, ?_⟩
  · exact mul_nonneg (div_nonneg hg0 (by norm_num)) hw.le
  · have h1 : a.grade / 100 ≤ 1 := (div_le_one (by norm_num)).mpr hg1
    calc (a.grade / 100) * a.weight ≤ 1 * a.weight :=
          mul_le_mul_of_nonneg_right h1 hw.le
      _ = a.weight := one_mul _

/-- Witness for C3. -/
theorem weighted_grade_spec_witness :
    (Assignment.mk "q" "FA" 80 20).weighted_grade = ((80 : ℚ) / 100) * 20
      ∧ 0 ≤ (Assignment.mk "q" "FA" 80 20).weighted_grade
      ∧ (Assignment.mk "q" "FA" 80 20).weighted_grade
          ≤ (Assignment.mk "q" "FA" 80 20).weight :=
  weighted_grade_spec ⟨"q", "FA", 80, 20⟩ (by decide) (by decide) (by decide)

/-- C4: `format_percentage` is total and never divides by zero: it returns
0 whenever the weight total is ≤ 0 (in particular at 0), and the exact
percentage otherwise. -/
theorem format_percentage_spec (x t : ℚ) :
    (t ≤ 0 → format_percentage x t = 0)
      ∧ format_percentage x 0 = 0
      ∧ (0 < t → format_percentage x t = (x / t) * 100) := by
  refine ⟨fun h => ?_, ?_, fun h => ?_⟩
  · simp [format_percentage, h]
  · simp [format_percentage]
  · simp [format_percentage, h.not_le]

/-- Witness for C4. -/
theorem format_percentage_spec_witness :
    format_percentage 3 0 = 0 ∧ format_percentage 3 2 = ((3 : ℚ) / 2) * 100 :=
  ⟨(format_percentage_spec 3 0).2.1, (format_percentage_spec 3 2).2.2 (by norm_num)⟩

/-- C5: the gpa computed by `calculate_totals` is `(final_grade / 100) * 5`,
which equals `final_grade * 0.05` exactly; a final grade of 100 yields a
gpa of 5. -/
theorem calculate_totals_gpa_spec (as : List Assignment) :
    (calculate_totals as).gpa = ((calculate_totals as).final_grade / 100) * 5
      ∧ (calculate_totals as).gpa = (calculate_totals as).final_grade * (0.05 : ℚ)
      ∧ ((calculate_totals as).final_grade = 100 → (calculate_totals as).gpa = 5) := by
  refine ⟨rfl, ?_, fun h => ?_⟩
  · simp only [calculate_totals]
    norm_num
    ring
  · simp only [calculate_totals] at h ⊢
    rw [h]
    norm_num

/-- Witness for C5: a session scoring exactly 100. -/
theorem calculate_totals_gpa_spec_witness :
    (calculate_totals [⟨"a", "FA", (100 : ℚ), 100⟩]).gpa = 5 :=
  (calculate_totals_gpa_spec _).2.2
    (by norm_num +decide [calculate_totals, Assignment.weighted_grade])

/-- C6: `write_csv` produces the header row followed by exactly one data
row per record, in entry order, with the grade and weight fields rendered
with exactly two decimal digits. -/
theorem write_csv_spec (as : List Assignment) :
    write_csv as = csvHeader :: as.map csvRow
      ∧ csvHeader = "Assignment,Category,Grade,Weight"
      ∧ (write_csv as).length = as.length + 1
      ∧ (∀ a ∈ as,
          csvRow a = a.name ++ "," ++ a.category ++ ","
              ++ fmt2 a.grade ++ "," ++ fmt2 a.weight
            ∧ twoDecimalField (fmt2 a.grade) ∧ twoDecimalField (fmt2 a.weight))
      ∧ write_csv [⟨"Quiz1", "FA", 80, 20⟩, ⟨"Final", "SA", 60, 80⟩]
          = ["Assignment,Category,Grade,Weight",
             "Quiz1,FA,80.00,20.00", "Final,SA,60.00,80.00"] := by
  have hmain : write_csv as = csvHeader :: as.map csvRow := by
    unfold write_csv
    rw [foldl_append_rows]
    rfl
  refine ⟨hmain, rfl, ?_, ?_, by decide⟩
  · rw [hmain]; simp
  · intro a _
    exact ⟨rfl, fmt2_twoDecimal _, fmt2_twoDecimal _⟩

/-- Witness for C6: the spec's end-to-end scenario row for "Quiz1". -/
theorem write_csv_spec_witness :
    csvRow ⟨"Quiz1", "FA", 80, 20⟩ = "Quiz1" ++ "," ++ "FA" ++ ","
        ++ fmt2 80 ++ "," ++ fmt2 20
      ∧ twoDecimalField (fmt2 (80 : ℚ)) ∧ twoDecimalField (fmt2 (20 : ℚ)) :=
  (write_csv_spec [⟨"Quiz1", "FA", 80, 20⟩]).2.2.2.1 ⟨"Quiz1", "FA", 80, 20⟩ (by simp)

/-- C7: on an empty record list, `main` prints only the informational
message and performs no aggregation, no summary output and no file write. -/
theorem main_run_empty :
    main_run [] = (["No assignments entered. Exiting without generating summary."], none) :=
  rfl

/-- C8: a per-category failure diagnostic is emitted exactly when the
overall verdict is FAIL, the category's weight total is positive and its
achieved total is strictly below its threshold; nothing is emitted when the
verdict is PASS. -/
theorem fail_diagnostics_spec (t : Totals) :
    ((⟨"FA", t.total_formative, t.fa_threshold⟩ : FailDiag) ∈ fail_diagnostics t
        ↔ (t.passes = false ∧ 0 < t.total_fa_weight
            ∧ t.total_formative < t.fa_threshold))
      ∧ ((⟨"SA", t.total_summative, t.sa_threshold⟩ : FailDiag) ∈ fail_diagnostics t
        ↔ (t.passes = false ∧ 0 < t.total_sa_weight
            ∧ t.total_summative < t.sa_threshold))
      ∧ (t.passes = true → fail_diagnostics t = []) := by
  cases hpass : t.passes
  · by_cases h1 : 0 < t.total_fa_weight ∧ t.total_formative < t.fa_threshold <;>
      by_cases h2 : 0 < t.total_sa_weight ∧ t.total_summative < t.sa_threshold <;>
      simp [fail_diagnostics, hpass, h1, h2, FailDiag.mk.injEq]
  · simp [fail_diagnostics, hpass]

/-- Witness for C8: a passing aggregate emits no diagnostics. -/
theorem fail_diagnostics_spec_witness :
    fail_diagnostics ⟨0, 0, 0, 0, 0, 0, 0, 0, true⟩ = [] :=
  (fail_diagnostics_spec ⟨0, 0, 0, 0, 0, 0, 0, 0, true⟩).2.2 rfl

/-- C9: a successfully collected record list is never empty (a record is
appended before the continuation question is asked), so the zero-records
early-exit branch of `main` is not taken after a successful collection. -/
theorem collect_assignments_ne_nil (parse : String → Option ℚ)
    (fuel : Nat) (inputs : List String) (as : List Assignment)
    (h : collect_assignments parse fuel inputs = some as) :
    as ≠ [] ∧ (main_run as).2 ≠ none := by
  have hne := (collect_assignments_sound parse fuel inputs as h).1
  refine ⟨hne, ?_⟩
  cases as with
  | nil => exact absurd rfl hne
  | cons a t => simp [main_run]

/-- Witness for C9: a one-record session. -/
theorem collect_assignments_ne_nil_witness :
    ([⟨"hw", "FA", 80, 20⟩] : List Assignment) ≠ []
      ∧ (main_run [⟨"hw", "FA", 80, 20⟩]).2 ≠ none :=
  collect_assignments_ne_nil witnessParse 1 ["hw", "fa", "80", "20", "n"] _ (by decide)

/-- C10: when every record is "FA" or "SA", the final grade is the sum of
all weighted grades, and it is not capped at 100: two full-scoring records
of weight 100 give a final grade of 200 > 100 and a gpa of 10 > 5. -/
theorem calculate_totals_final_grade_spec (as : List Assignment)
    (h : ∀ a ∈ as, a.category = "FA" ∨ a.category = "SA") :
    (calculate_totals as).final_grade = (as.map Assignment.weighted_grade).sum
      ∧ 100 < (calculate_totals
          [⟨"a1", "FA", (100 : ℚ), 100⟩, ⟨"a2", "SA", (100 : ℚ), 100⟩]).final_grade
      ∧ 5 < (calculate_totals
          [⟨"a1", "FA", (100 : ℚ), 100⟩, ⟨"a2", "SA", (100 : ℚ), 100⟩]).gpa := by
  refine ⟨?_, ?_, ?_⟩
  · simp only [calculate_totals]
    exact sum_wg_split as h
  · norm_num +decide [calculate_totals, Assignment.weighted_grade]
  · norm_num +decide [calculate_totals, Assignment.weighted_grade]

/-- Witness for C10. -/
theorem calculate_totals_final_grade_spec_witness :
    (calculate_totals [⟨"q", "FA", (80 : ℚ), 20⟩]).final_grade
      = ([⟨"q", "FA", (80 : ℚ), 20⟩].map Assignment.weighted_grade).sum :=
  (calculate_totals_final_grade_spec _ (by simp)).1

end GradeGen
